import Mathlib

/-!
Verification of the sensor presentation engine of obmc-yadro-lssensors
(`src/list-sensors.cpp` together with the watch/CLI layer of the later
revision of the same program).

Modelling conventions of this shallow embedding:
* Every IEEE-754 double is exactly `m * 10 ^ e` for integers `m`, `e`
  (a binary fraction is a finite decimal fraction), so C++ `double`s are
  modelled as exact decimal pairs `Dec` plus a NaN marker; float
  arithmetic (`powf(10, s)`, mantissa times factor, comparisons) is
  idealised as exact arithmetic on these pairs.  `printf` rounding of
  ties is idealised as half-up.
* `int64_t` and `int` are idealised as unbounded integers; no claim
  exercises integer overflow.
* A `PropertiesMap` (`std::map<std::string, variant>`) becomes a lookup
  function `String → Option PropertyValue`; `find` returning `end()` is
  `none`.
* `std::get<T>` on a mismatched variant alternative throws
  `std::bad_variant_access`; such paths return `Except.error ()`.
* `snprintf(buf, 8, ...)` writes at most 7 characters plus a NUL
  terminator; the observable string (what `printf("%s")` later prints)
  is the formatted text truncated to 7 characters.
* sdbusplus `bus::call` throws `SdBusError` whenever a call fails,
  including a method-error reply (this program's own `main` wraps the
  same API in `try/catch` and even inspects `ex.name()` of the mapper's
  error reply), so the `if (r.is_method_error())` branches after
  `systemBus.call` are dead code.  A failed per-sensor `GetAll` is
  therefore modelled as an exception that no caller handles: the process
  terminates abnormally (`Exit.signal`), with a non-zero observed status.
-/

namespace LsSensors

/-- An exact decimal number `m * 10 ^ e`, the idealisation of a C++
floating-point value. -/
structure Dec where
  m : ℤ
  e : ℤ
  deriving DecidableEq

namespace Dec

/-- Exact product of two decimal values. -/
def mul (a b : Dec) : Dec := ⟨a.m * b.m, a.e + b.e⟩

/-- Exact comparison `m * 10 ^ e < k` for an integer bound `k`. -/
def ltInt (d : Dec) (k : ℤ) : Bool :=
  if 0 ≤ d.e then decide (d.m * (10 : ℤ) ^ d.e.toNat < k)
  else decide (d.m < k * (10 : ℤ) ^ (-d.e).toNat)

/-- The value is negative (sign printed by `%f`). -/
def isNeg (d : Dec) : Bool := decide (d.m < 0)

/-- Round to the nearest integer, ties upward (printf rounding,
idealised). -/
def roundInt (d : Dec) : ℤ :=
  if 0 ≤ d.e then d.m * (10 : ℤ) ^ d.e.toNat
  else Int.fdiv (2 * d.m + (10 : ℤ) ^ (-d.e).toNat) (2 * (10 : ℤ) ^ (-d.e).toNat)

/-- Truncation toward zero: the C `(int)` cast. -/
def truncInt (d : Dec) : ℤ :=
  if 0 ≤ d.e then d.m * (10 : ℤ) ^ d.e.toNat
  else Int.tdiv d.m ((10 : ℤ) ^ (-d.e).toNat)

/-- Exact magnitude comparison `|m * 10 ^ e| < k` (used only by the
specification-side formatting rule of claim C4). -/
def absLtInt (d : Dec) (k : ℤ) : Bool :=
  if 0 ≤ d.e then decide (d.m.natAbs * (10 : ℤ) ^ d.e.toNat < k)
  else decide ((d.m.natAbs : ℤ) < k * (10 : ℤ) ^ (-d.e).toNat)

end Dec

/-- Idealised `double`: an exact decimal value or NaN. -/
inductive DVal where
  | num (d : Dec)
  | nan
  deriving DecidableEq

/-- `std::variant<int64_t, std::string, bool, double>` from the source. -/
inductive PropertyValue where
  | int64 (n : ℤ)
  | str (s : String)
  | bool (b : Bool)
  | dbl (v : DVal)
  deriving DecidableEq

/-- A `PropertiesMap` as a lookup function; `none` means the key is absent. -/
abbrev Properties := String → Option PropertyValue

/-- Left-pad a string with spaces to width `w` (printf right-justification). -/
def padLeft (s : String) (w : ℕ) : String :=
  String.mk (List.replicate (w - s.data.length) ' ') ++ s

/-- The 8-byte `snprintf` buffer keeps at most 7 characters of output. -/
def buf7 (s : String) : String := String.mk (s.data.take 7)

/-- Three-digit zero-padded fraction part of `"%.03f"`. -/
def pad3 (n : ℕ) : String :=
  if n < 10 then "00" ++ toString n
  else if n < 100 then "0" ++ toString n
  else toString n

/-- `snprintf("%7.03f", d)` under the 8-byte buffer: sign, integer part,
three rounded decimals, right-justified to width 7, truncated to 7. -/
def fmtFixed3 (d : Dec) : String :=
  let m3 : ℤ := Dec.roundInt ⟨d.m, d.e + 3⟩
  let sign : String := if d.isNeg then "-" else ""
  buf7 (padLeft (sign ++ toString (m3.natAbs / 1000) ++ "." ++ pad3 (m3.natAbs % 1000)) 7)

/-- `snprintf("%7d", z)` under the 8-byte buffer. -/
def fmtInt7 (z : ℤ) : String := buf7 (padLeft (toString z) 7)

/-- `Properties::scale`: the factor `10 ^ Scale` represented exactly,
with `Scale` absent meaning factor 1; a non-`int64` `Scale` value makes
`std::get<int64_t>` throw. -/
def scale (r : Properties) : Except Unit Dec :=
  match r "Scale" with
  | none => .ok ⟨1, 0⟩
  | some (.int64 n) => .ok ⟨1, n⟩
  | some _ => .error ()

/-- `Properties::getValue`: format a sensor value or threshold.
Absent key → "N/A"; double NaN → "N/A"; double below 1000 → "%7.03f";
other double → "%7d" of the `(int)` cast; otherwise `int64` mantissa
times the scale factor, "%7.03f" when the factor is below 1, else "%7d". -/
def getValue (r : Properties) (name : String) : Except Unit String :=
  match r name with
  | none => .ok "N/A"
  | some (.dbl .nan) => .ok "N/A"
  | some (.dbl (.num q)) =>
    .ok (if q.ltInt 1000 then fmtFixed3 q else fmtInt7 q.truncInt)
  | some (.int64 v) =>
    match scale r with
    | .error e => .error e
    | .ok factor =>
      .ok (if factor.ltInt 1 then fmtFixed3 (Dec.mul ⟨v, 0⟩ factor)
        else fmtInt7 (Dec.mul ⟨v, 0⟩ factor).truncInt)
  | some _ => .error ()

/-- Second half of `Properties::functional`: the `Available` check, given
the intermediate result `ret` of the `Functional` check. -/
def functionalAvail (r : Properties) (ret : String) : Except Unit String :=
  match r "Available" with
  | none => .ok ret
  | some (.bool b) => .ok (if b then ret else "N/A")
  | some _ => .error ()

/-- `Properties::functional`: "FAIL" when `Functional` is present and false,
overridden by "N/A" when `Available` is present and false, else "OK". -/
def functional (r : Properties) : Except Unit String :=
  match r "Functional" with
  | none => functionalAvail r "OK"
  | some (.bool b) => functionalAvail r (if b then "OK" else "FAIL")
  | some _ => .error ()

/-- `Properties::getBool`: absent key is false, a present key is read with
`std::get<bool>`. -/
def getBool (r : Properties) (n : String) : Except Unit Bool :=
  match r n with
  | none => .ok false
  | some (.bool b) => .ok b
  | some _ => .error ()

/-- C++ short-circuit `||` over two possibly-throwing boolean reads. -/
def orBool (a : Except Unit Bool) (b : Unit → Except Unit Bool) : Except Unit Bool :=
  match a with
  | .error e => .error e
  | .ok true => .ok true
  | .ok false => b ()

/-- `Properties::status`: alarms are consulted only when `functional`
returned "OK", in the order Fatal, Critical, Warning. -/
def status (r : Properties) : Except Unit String :=
  match functional r with
  | .error e => .error e
  | .ok ret =>
    if ret = "OK" then
      match getBool r "FatalAlarmHigh" with
      | .error e => .error e
      | .ok true => .ok "Fatal"
      | .ok false =>
        match orBool (getBool r "CriticalAlarmLow") (fun _ => getBool r "CriticalAlarmHigh") with
        | .error e => .error e
        | .ok true => .ok "Critical"
        | .ok false =>
          match orBool (getBool r "WarningAlarmLow") (fun _ => getBool r "WarningAlarmHigh") with
          | .error e => .error e
          | .ok true => .ok "Warning"
          | .ok false => .ok "OK"
    else .ok ret

/-- `Properties::value`: the reading is suppressed to "N/A" whenever
`functional` is not "OK". -/
def value (r : Properties) : Except Unit String :=
  match functional r with
  | .error e => .error e
  | .ok s => if s ≠ "OK" then .ok "N/A" else getValue r "Value"

/-- `Properties::criticalLow`. -/
def criticalLow (r : Properties) : Except Unit String := getValue r "CriticalLow"

/-- `Properties::criticalHigh`. -/
def criticalHigh (r : Properties) : Except Unit String := getValue r "CriticalHigh"

/-- `Properties::warningLow`. -/
def warningLow (r : Properties) : Except Unit String := getValue r "WarningLow"

/-- `Properties::warningHigh`. -/
def warningHigh (r : Properties) : Except Unit String := getValue r "WarningHigh"

/-- `Properties::fatalHigh`. -/
def fatalHigh (r : Properties) : Except Unit String := getValue r "FatalHigh"

/-- `name.substr(name.rfind(sep) + 1)`: the part after the last separator,
the whole string when the separator does not occur. -/
def afterLast (sep : Char) (s : String) : String :=
  String.mk ((s.data.reverse.takeWhile (fun c => !(c == sep))).reverse)

/-- `Properties::unit`: strip the namespace up to the last dot and map the
token through the shorthand table; unknown tokens pass through. -/
def unit (r : Properties) : Except Unit String :=
  match r "Unit" with
  | none => .ok ""
  | some (.str s0) =>
    let name := afterLast '.' s0
    .ok (if name = "Volts" then "V"
      else if name = "DegreesC" then "°C  "
      else if name = "Amperes" then "A"
      else if name = "RPMS" then "RPM"
      else if name = "Watts" then "W"
      else if name = "Joules" then "J"
      else if name = "Meters" then "m"
      else if name = "Percent" then "%" else name)
  | some _ => .error ()

/-- A lookup result that is either absent or holds a boolean alternative,
so that reading it with `std::get<bool>` cannot throw. -/
def boolShape : Option PropertyValue → Bool
  | none => true
  | some (.bool _) => true
  | some _ => false

/-- A present boolean `false` ("present and false" in the specification). -/
def presentFalse : Option PropertyValue → Bool
  | some (.bool false) => true
  | _ => false

/-- A present boolean `true` (absent keys are treated as false). -/
def presentTrue : Option PropertyValue → Bool
  | some (.bool true) => true
  | _ => false

/-- All seven status-relevant keys hold boolean alternatives when present. -/
def statusWT (r : Properties) : Bool :=
  boolShape (r "Available") && boolShape (r "Functional") &&
  boolShape (r "FatalAlarmHigh") &&
  boolShape (r "CriticalAlarmLow") && boolShape (r "CriticalAlarmHigh") &&
  boolShape (r "WarningAlarmLow") && boolShape (r "WarningAlarmHigh")

/-- The status rule exactly as the specification words it: "N/A" if
`Available` is present and false; else "FAIL" if `Functional` is present
and false; else "Fatal", "Critical", "Warning" by alarm priority; else
"OK"; absent keys count as false. -/
def statusSpec (r : Properties) : String :=
  if presentFalse (r "Available") then "N/A"
  else if presentFalse (r "Functional") then "FAIL"
  else if presentTrue (r "FatalAlarmHigh") then "Fatal"
  else if presentTrue (r "CriticalAlarmLow") || presentTrue (r "CriticalAlarmHigh") then "Critical"
  else if presentTrue (r "WarningAlarmLow") || presentTrue (r "WarningAlarmHigh") then "Warning"
  else "OK"

theorem boolShape_elim {o : Option PropertyValue} (h : boolShape o = true) :
    o = none ∨ ∃ b, o = some (.bool b) := by
  rcases o with _ | v
  · exact Or.inl rfl
  · rcases v with n | s | b | d
    · simp [boolShape] at h
    · simp [boolShape] at h
    · exact Or.inr ⟨b, rfl⟩
    · simp [boolShape] at h

theorem getBool_eq (r : Properties) (n : String) (h : boolShape (r n) = true) :
    getBool r n = .ok (presentTrue (r n)) := by
  rcases boolShape_elim h with h' | ⟨b, h'⟩
  · simp [getBool, h', presentTrue]
  · cases b <;> simp [getBool, h', presentTrue]

theorem functional_eq (r : Properties)
    (hF : boolShape (r "Functional") = true) (hA : boolShape (r "Available") = true) :
    functional r = .ok (if presentFalse (r "Available") then "N/A"
      else if presentFalse (r "Functional") then "FAIL" else "OK") := by
  rcases boolShape_elim hF with hF' | ⟨bf, hF'⟩ <;>
    rcases boolShape_elim hA with hA' | ⟨ba, hA'⟩
  · simp [functional, functionalAvail, hF', hA', presentFalse]
  · cases ba <;> simp [functional, functionalAvail, hF', hA', presentFalse]
  · cases bf <;> simp [functional, functionalAvail, hF', hA', presentFalse]
  · cases bf <;> cases ba <;> simp [functional, functionalAvail, hF', hA', presentFalse]

theorem orBool_ok (a b : Bool) :
    orBool (.ok a) (fun _ => .ok b) = .ok (a || b) := by
  cases a <;> rfl

/-- Claim C1: for every property map whose status-relevant keys are
boolean where present, `status` returns exactly one of "N/A", "FAIL",
"Fatal", "Critical", "Warning", "OK", chosen in the priority order of the
specification (`Available` present-and-false terminal, then `Functional`
present-and-false, then the alarms in Fatal/Critical/Warning order);
absent keys count as false and never cause an error. -/
theorem status_follows_spec_priority (r : Properties) (h : statusWT r = true) :
    status r = .ok (statusSpec r) ∧
      statusSpec r ∈ ["N/A", "FAIL", "Fatal", "Critical", "Warning", "OK"] := by
  simp only [statusWT, Bool.and_eq_true] at h
  obtain ⟨⟨⟨⟨⟨⟨hA, hF⟩, hFat⟩, hCL⟩, hCH⟩, hWL⟩, hWH⟩ := h
  constructor
  · rw [status, functional_eq r hF hA, statusSpec]
    cases hA1 : presentFalse (r "Available") <;>
      cases hF1 : presentFalse (r "Functional") <;>
        simp only [if_true, if_false, Bool.false_eq_true, reduceIte]
    · rw [getBool_eq r _ hFat, getBool_eq r _ hCL, getBool_eq r _ hCH,
        getBool_eq r _ hWL, getBool_eq r _ hWH, orBool_ok, orBool_ok]
      cases presentTrue (r "FatalAlarmHigh") <;>
        cases presentTrue (r "CriticalAlarmLow") <;>
          cases presentTrue (r "CriticalAlarmHigh") <;>
            cases presentTrue (r "WarningAlarmLow") <;>
              cases presentTrue (r "WarningAlarmHigh") <;> simp
    · simp
    · simp
    · simp
  · rw [statusSpec]
    split_ifs <;> simp

/-- Concrete witness map for C1: `Available=false` with a fatal alarm set. -/
def exC1 : Properties := fun n =>
  if n = "Available" then some (.bool false)
  else if n = "FatalAlarmHigh" then some (.bool true)
  else none

theorem status_follows_spec_priority_witness :
    status exC1 = .ok (statusSpec exC1) ∧
      statusSpec exC1 ∈ ["N/A", "FAIL", "Fatal", "Critical", "Warning", "OK"] :=
  status_follows_spec_priority exC1 (by decide)

example : status exC1 = .ok "N/A" := rfl

theorem buf7_padLeft_length (s : String) : (buf7 (padLeft s 7)).length = 7 := by
  show (List.take 7 (List.replicate (7 - s.data.length) ' ' ++ s.data)).length = 7
  rw [List.length_take, List.length_append, List.length_replicate]
  omega

theorem fmtFixed3_length (d : Dec) : (fmtFixed3 d).length = 7 :=
  buf7_padLeft_length _

theorem fmtInt7_length (z : ℤ) : (fmtInt7 z).length = 7 :=
  buf7_padLeft_length _

theorem getValue_congr (r r' : Properties) (k : String)
    (h1 : r k = r' k) (h2 : r "Scale" = r' "Scale") :
    getValue r k = getValue r' k := by
  have hs : scale r = scale r' := by rw [scale, h2]; rfl
  rw [getValue, getValue, h1, hs]

/-- The five threshold keys of the row. -/
def thresholdKeys : List String :=
  ["CriticalLow", "CriticalHigh", "WarningLow", "WarningHigh", "FatalHigh"]

/-- The same reading with the `Available`/`Functional` keys removed: a
fully functional sensor with identical raw numeric data. -/
def stripAF (r : Properties) : Properties := fun n =>
  if n = "Available" then none else if n = "Functional" then none else r n

/-- Claim C2 (amended): when `Available` or `Functional` is present and
false, the `Value` field is suppressed to the unavailable marker even if a
raw value is present, while every threshold field renders exactly as it
would for a fully functional sensor — numerically when its key is present
with a non-NaN value (a present NaN threshold renders the marker); the
non-functional state never suppresses thresholds. -/
theorem value_suppressed_thresholds_not (r : Properties)
    (h : r "Available" = some (.bool false) ∨ r "Functional" = some (.bool false))
    (hA : boolShape (r "Available") = true) (hF : boolShape (r "Functional") = true) :
    value r = .ok "N/A" ∧
    (∀ k ∈ thresholdKeys, getValue r k = getValue (stripAF r) k) ∧
    (∀ k ∈ thresholdKeys, ∀ q : Dec, r k = some (.dbl (.num q)) →
      ∃ out, getValue r k = .ok out ∧ out ≠ "N/A") := by
  refine ⟨?_, ?_, ?_⟩
  · rw [value, functional_eq r hF hA]
    rcases h with h | h
    · simp [h, presentFalse]
    · cases hA1 : presentFalse (r "Available") <;> simp [h, hA1, presentFalse]
  · intro k hk
    refine getValue_congr r (stripAF r) k ?_ ?_
    · fin_cases hk <;> simp [stripAF]
    · simp [stripAF]
  · intro k hk q hq
    rw [getValue, hq]
    refine ⟨_, rfl, ?_⟩
    intro he
    have h7 : (if q.ltInt 1000 then fmtFixed3 q else fmtInt7 q.truncInt).length = 7 := by
      cases q.ltInt 1000 <;> simp [fmtFixed3_length, fmtInt7_length]
    rw [he] at h7
    exact absurd h7 (by decide)

/-- Counterexample input for C2 as frozen: non-functional sensor with a
present NaN threshold and a present raw value. -/
def exC2 : Properties := fun n =>
  if n = "Available" then some (.bool false)
  else if n = "CriticalLow" then some (.dbl .nan)
  else if n = "Value" then some (.dbl (.num ⟨42, 0⟩))
  else none

/-- Claim C2 as frozen is false: `CriticalLow` is present on this reading,
yet its rendering is the unavailable marker (NaN), not a numeric string. -/
theorem claim_C2_counterexample :
    exC2 "CriticalLow" = some (.dbl .nan) ∧
    exC2 "Available" = some (.bool false) ∧
    criticalLow exC2 = .ok "N/A" ∧ value exC2 = .ok "N/A" :=
  ⟨rfl, rfl, rfl, rfl⟩

theorem value_suppressed_thresholds_not_witness :
    value exC2 = .ok "N/A" ∧
    (∀ k ∈ thresholdKeys, getValue exC2 k = getValue (stripAF exC2) k) ∧
    (∀ k ∈ thresholdKeys, ∀ q : Dec, exC2 k = some (.dbl (.num q)) →
      ∃ out, getValue exC2 k = .ok out ∧ out ≠ "N/A") :=
  value_suppressed_thresholds_not exC2 (Or.inl (by decide)) (by decide) (by decide)

/-- The raw numeric encoding of one field: integer mantissa with a
power-of-ten scale, or a floating value. -/
inductive RawNum where
  | intMantissa (m : ℤ) (s : ℤ)
  | floatVal (v : DVal)

/-- The formatting rule exactly as claim C4 words it: unavailable marker
for NaN, fixed 3-decimal format when the magnitude of the scaled value is
below 1000, otherwise a rounded integer right-justified; the scaled value
of an integer-mantissa reading is the mantissa times `10 ^ Scale`. -/
def claimFormatC4 : RawNum → String
  | .floatVal .nan => "N/A"
  | .floatVal (.num q) => if q.absLtInt 1000 then fmtFixed3 q else fmtInt7 q.roundInt
  | .intMantissa m s =>
    if Dec.absLtInt ⟨m, s⟩ 1000 then fmtFixed3 ⟨m, s⟩ else fmtInt7 (Dec.roundInt ⟨m, s⟩)

/-- The formatting rule the code actually implements: floating readings
branch on the signed comparison `value < 1000` and truncate toward zero
in the integer branch; integer-mantissa readings branch on the scale
factor `10 ^ Scale < 1`, not on the scaled value. -/
def codeFormatC4 : RawNum → String
  | .floatVal .nan => "N/A"
  | .floatVal (.num q) => if q.ltInt 1000 then fmtFixed3 q else fmtInt7 q.truncInt
  | .intMantissa m s =>
    if Dec.ltInt ⟨1, s⟩ 1 then fmtFixed3 ⟨m, s⟩ else fmtInt7 (Dec.truncInt ⟨m, s⟩)

/-- Input for the C4 counterexample: integer `Value=5`, no `Scale`. -/
def exC4 : Properties := fun n => if n = "Value" then some (.int64 5) else none

/-- Claim C4 as frozen is false: the scaled value 5 has magnitude below
1000, so the claimed rule demands fixed 3-decimal format "  5.000", but
the code formats integer-mantissa readings with a non-negative scale with
"%7d", producing "      5". -/
theorem claim_C4_counterexample :
    exC4 "Value" = some (.int64 5) ∧ exC4 "Scale" = none ∧
    getValue exC4 "Value" = .ok "      5" ∧
    claimFormatC4 (.intMantissa 5 0) = "  5.000" ∧
    ("      5" : String) ≠ "  5.000" :=
  ⟨rfl, rfl, rfl, by decide, by decide⟩

/-- Claim C4 (amended): every present raw numeric field is formatted by
`codeFormatC4` — NaN gives the marker; a floating value is compared
signed against 1000 (3 decimals below, else `(int)`-truncated "%7d");
an integer mantissa is scaled by `10 ^ Scale` (`Scale` defaulting to 0)
and the branch is on the factor being below 1 — identically for `Value`
and every threshold field. -/
theorem format_rule_amended :
    (∀ (r : Properties) (k : String) (v : DVal), r k = some (.dbl v) →
        getValue r k = .ok (codeFormatC4 (.floatVal v))) ∧
    (∀ (r : Properties) (k : String) (m s : ℤ), r k = some (.int64 m) →
        r "Scale" = some (.int64 s) →
        getValue r k = .ok (codeFormatC4 (.intMantissa m s))) ∧
    (∀ (r : Properties) (k : String) (m : ℤ), r k = some (.int64 m) →
        r "Scale" = none →
        getValue r k = .ok (codeFormatC4 (.intMantissa m 0))) ∧
    (∀ r : Properties, criticalLow r = getValue r "CriticalLow" ∧
      criticalHigh r = getValue r "CriticalHigh" ∧
      warningLow r = getValue r "WarningLow" ∧
      warningHigh r = getValue r "WarningHigh" ∧
      fatalHigh r = getValue r "FatalHigh") ∧
    (∀ r : Properties, functional r = .ok "OK" → value r = getValue r "Value") := by
  refine ⟨?_, ?_, ?_, ?_, ?_⟩
  · intro r k v hv
    rcases v with q | _ <;> simp [getValue, hv, codeFormatC4]
  · intro r k m s h1 h2
    simp [getValue, h1, scale, h2, codeFormatC4, Dec.mul]
  · intro r k m h1 h2
    simp [getValue, h1, scale, h2, codeFormatC4, Dec.mul]
  · intro r
    exact ⟨rfl, rfl, rfl, rfl, rfl⟩
  · intro r hr
    rw [value, hr]
    simp

/-- Input for the C4 witness: the specification's own example,
`Scale=-2`, integer `Value=1234`. -/
def exC4s : Properties := fun n =>
  if n = "Value" then some (.int64 1234)
  else if n = "Scale" then some (.int64 (-2)) else none

theorem format_rule_amended_witness :
    getValue exC4s "Value" = .ok (codeFormatC4 (.intMantissa 1234 (-2))) ∧
    codeFormatC4 (.intMantissa 1234 (-2)) = " 12.340" :=
  ⟨format_rule_amended.2.1 exC4s "Value" 1234 (-2) (by decide) (by decide), by decide⟩

/-- Claim C5: an absent value or threshold key always renders exactly the
unavailable marker — never the empty string and never a failure —
independent of the functional or available state of the sensor. -/
theorem absent_key_renders_marker (r : Properties) (name : String)
    (h : r name = none)
    (hA : boolShape (r "Available") = true) (hF : boolShape (r "Functional") = true) :
    getValue r name = .ok "N/A" ∧ (name = "Value" → value r = .ok "N/A") ∧
    "N/A" ≠ "" := by
  refine ⟨by rw [getValue, h], ?_, by decide⟩
  intro hn
  subst hn
  rw [value, functional_eq r hF hA]
  cases presentFalse (r "Available") <;> cases presentFalse (r "Functional") <;>
    simp [getValue, h]

/-- Witness map for C5: a non-functional sensor with no raw keys at all. -/
def exC5 : Properties := fun n =>
  if n = "Functional" then some (.bool false) else none

theorem absent_key_renders_marker_witness :
    getValue exC5 "Value" = .ok "N/A" ∧
    ("Value" = "Value" → value exC5 = .ok "N/A") ∧ "N/A" ≠ "" :=
  absent_key_renders_marker exC5 "Value" (by decide) (by decide) (by decide)

/-- `chr >= '0' && chr <= '9'` on the byte value of the character. -/
def isDig (c : Char) : Bool := 48 ≤ c.toNat && c.toNat ≤ 57

/-- Numeric value of a decimal digit character. -/
def digVal (c : Char) : ℕ := c.toNat - 48

/-- The number denoted by a digit run (most significant digit first). -/
def parseNat (l : List Char) : ℕ := l.foldl (fun a c => a * 10 + digVal c) 0

/-- `ULONG_MAX`: `strtoul` clamps out-of-range values to this. -/
def ulongMax : ℕ := 2 ^ 64 - 1

/-- The value `strtoul` returns for a maximal digit run. -/
def runVal (l : List Char) : ℕ := min (parseNat l) ulongMax

theorem length_dropWhile_le (p : Char → Bool) (l : List Char) :
    (List.dropWhile p l).length ≤ l.length := by
  induction l with
  | nil => simp [List.dropWhile]
  | cons c cs ih =>
    cases hc : p c
    · simp [List.dropWhile, hc]
    · simp [List.dropWhile, hc]
      exact ih.trans (Nat.le_succ _)

theorem dropWhile_cons_pos (p : Char → Bool) (c : Char) (l : List Char)
    (h : p c = true) : List.dropWhile p (c :: l) = List.dropWhile p l := by
  simp [List.dropWhile, h]

theorem takeWhile_cons_pos (p : Char → Bool) (c : Char) (l : List Char)
    (h : p c = true) : List.takeWhile p (c :: l) = c :: List.takeWhile p l := by
  simp [List.takeWhile, h]

/-- `CmpSensorsName::operator()` scanning two C strings in lock-step:
digit runs at the same position compare by their `strtoul` value, a digit
beats a non-digit, otherwise bytes compare literally; at a terminator the
result is `!!chrB`. -/
def cmpLt : List Char → List Char → Bool
  | [], [] => false
  | [], _ :: _ => true
  | _ :: _, [] => false
  | ca :: as, cb :: bs =>
    if hd : isDig ca && isDig cb then
      if runVal ((ca :: as).takeWhile isDig) ≠ runVal ((cb :: bs).takeWhile isDig) then
        decide (runVal ((ca :: as).takeWhile isDig) < runVal ((cb :: bs).takeWhile isDig))
      else cmpLt ((ca :: as).dropWhile isDig) ((cb :: bs).dropWhile isDig)
    else if isDig ca then true
    else if isDig cb then false
    else if ca.toNat ≠ cb.toNat then decide (ca.toNat < cb.toNat) else cmpLt as bs
termination_by a _ => a.length
decreasing_by
  · have hda : isDig ca = true := by
      revert hd
      cases isDig ca <;> simp
    have h1 := length_dropWhile_le isDig as
    rw [dropWhile_cons_pos isDig ca as hda]
    simp only [List.length_cons]
    omega
  · simp only [List.length_cons]
    omega

/-- Fuel-indexed twin of `cmpLt`, used only to evaluate the comparator on
concrete identifiers by kernel reduction. -/
def cmpN : ℕ → List Char → List Char → Bool
  | 0, _, _ => false
  | _ + 1, [], [] => false
  | _ + 1, [], _ :: _ => true
  | _ + 1, _ :: _, [] => false
  | n + 1, ca :: as, cb :: bs =>
    if isDig ca && isDig cb then
      if runVal ((ca :: as).takeWhile isDig) ≠ runVal ((cb :: bs).takeWhile isDig) then
        decide (runVal ((ca :: as).takeWhile isDig) < runVal ((cb :: bs).takeWhile isDig))
      else cmpN n ((ca :: as).dropWhile isDig) ((cb :: bs).dropWhile isDig)
    else if isDig ca then true
    else if isDig cb then false
    else if ca.toNat ≠ cb.toNat then decide (ca.toNat < cb.toNat) else cmpN n as bs

theorem cmpLt_eq_cmpN : ∀ (n : ℕ) (a b : List Char), a.length < n → cmpLt a b = cmpN n a b := by
  intro n
  induction n with
  | zero => exact fun a b h => absurd h (Nat.not_lt_zero _)
  | succ n ih =>
    intro a b h
    match a, b with
    | [], [] => simp [cmpLt, cmpN]
    | [], c :: cs => simp [cmpLt, cmpN]
    | ca :: as, [] => simp [cmpLt, cmpN]
    | ca :: as, cb :: bs =>
      simp only [cmpLt, cmpN]
      by_cases hd : (isDig ca && isDig cb) = true
      · rw [dif_pos hd, if_pos hd]
        by_cases hv : runVal ((ca :: as).takeWhile isDig) ≠ runVal ((cb :: bs).takeWhile isDig)
        · rw [if_pos hv, if_pos hv]
        · rw [if_neg hv, if_neg hv]
          apply ih
          have hda : isDig ca = true := by
            revert hd
            cases isDig ca <;> simp
          rw [dropWhile_cons_pos isDig ca as hda]
          have h2 := length_dropWhile_le isDig as
          simp only [List.length_cons] at h
          omega
      · rw [dif_neg hd, if_neg hd]
        by_cases h1 : isDig ca = true
        · rw [if_pos h1, if_pos h1]
        · rw [if_neg h1, if_neg h1]
          by_cases h2 : isDig cb = true
          · rw [if_pos h2, if_pos h2]
          · rw [if_neg h2, if_neg h2]
            by_cases h3 : ca.toNat ≠ cb.toNat
            · rw [if_pos h3, if_pos h3]
            · rw [if_neg h3, if_neg h3]
              apply ih
              simp only [List.length_cons] at h
              omega

theorem cmpLt_eval (a b : List Char) : cmpLt a b = cmpN (a.length + 1) a b :=
  cmpLt_eq_cmpN (a.length + 1) a b (Nat.lt_succ_self _)

/-- The comparator from the source, on whole identifier strings. -/
def CmpSensorsName (a b : String) : Bool := cmpLt a.data b.data

theorem CmpSensorsName_eval (a b : String) :
    CmpSensorsName a b = cmpN (a.data.length + 1) a.data b.data :=
  cmpLt_eval a.data b.data

example : CmpSensorsName "fan2" "fan10" = true := by
  rw [CmpSensorsName_eval]
  decide

example : CmpSensorsName "fan10" "fan2" = false := by
  rw [CmpSensorsName_eval]
  decide

/-- A token of the lock-step scan: a maximal digit run (by `strtoul`
value) or a single non-digit byte. -/
inductive Tok where
  | num (v : ℕ)
  | ch (code : ℕ)
  deriving DecidableEq

/-- Tokenization of an identifier into digit runs and single bytes. -/
def toks : List Char → List Tok
  | [] => []
  | c :: cs =>
    if hd : isDig c then
      .num (runVal ((c :: cs).takeWhile isDig)) :: toks ((c :: cs).dropWhile isDig)
    else .ch c.toNat :: toks cs
termination_by l => l.length
decreasing_by
  · have h1 := length_dropWhile_le isDig cs
    rw [dropWhile_cons_pos isDig c cs hd]
    simp only [List.length_cons]
    omega
  · simp only [List.length_cons]
    omega

/-- Token order induced by the scan: digit runs by value, digit run
before byte, bytes by code. -/
def tokLt : Tok → Tok → Bool
  | .num v, .num w => decide (v < w)
  | .num _, .ch _ => true
  | .ch _, .num _ => false
  | .ch c, .ch d => decide (c < d)

/-- Lexicographic extension of `tokLt` with ends-first. -/
def listLt : List Tok → List Tok → Bool
  | [], [] => false
  | [], _ :: _ => true
  | _ :: _, [] => false
  | x :: xs, y :: ys =>
    if tokLt x y then true
    else if tokLt y x then false
    else listLt xs ys

theorem bool_ne_true {b : Bool} (h : ¬ b = true) : b = false := by
  cases b
  · rfl
  · exact absurd rfl h

theorem tokLt_irrefl (t : Tok) : tokLt t t = false := by
  cases t <;> simp [tokLt]

theorem tokLt_asymm {s t : Tok} (h : tokLt s t = true) : tokLt t s = false := by
  cases s <;> cases t <;> simp_all [tokLt] <;> omega

theorem tokLt_trans {s t u : Tok} (h1 : tokLt s t = true) (h2 : tokLt t u = true) :
    tokLt s u = true := by
  cases s <;> cases t <;> cases u <;> simp_all [tokLt] <;> omega

theorem tokLt_total_eq {s t : Tok} (h1 : tokLt s t = false) (h2 : tokLt t s = false) :
    s = t := by
  cases s <;> cases t <;> simp_all [tokLt] <;> omega

theorem listLt_irrefl : ∀ l : List Tok, listLt l l = false := by
  intro l
  induction l with
  | nil => rfl
  | cons x xs ih => simp [listLt, tokLt_irrefl, ih]

theorem listLt_asymm : ∀ l1 l2 : List Tok, listLt l1 l2 = true → listLt l2 l1 = false := by
  intro l1
  induction l1 with
  | nil =>
    intro l2 h
    cases l2 with
    | nil => simp [listLt] at h
    | cons y ys => simp [listLt]
  | cons x xs ih =>
    intro l2 h
    cases l2 with
    | nil => simp [listLt] at h
    | cons y ys =>
      simp only [listLt] at h ⊢
      by_cases h1 : tokLt x y = true
      · rw [if_neg (by simp [tokLt_asymm h1]), if_pos h1]
      · by_cases h2 : tokLt y x = true
        · rw [if_neg h1, if_pos h2] at h
          exact absurd h (by simp)
        · rw [if_neg h1, if_neg h2] at h
          rw [if_neg h2, if_neg h1]
          exact ih ys h

theorem listLt_trans : ∀ l1 l2 l3 : List Tok, listLt l1 l2 = true →
    listLt l2 l3 = true → listLt l1 l3 = true := by
  intro l1
  induction l1 with
  | nil =>
    intro l2 l3 h1 h2
    cases l3 with
    | cons z zs => simp [listLt]
    | nil =>
      cases l2 with
      | nil => simp [listLt] at h1
      | cons y ys => simp [listLt] at h2
  | cons x xs ih =>
    intro l2 l3 h1 h2
    cases l2 with
    | nil => simp [listLt] at h1
    | cons y ys =>
      cases l3 with
      | nil => simp [listLt] at h2
      | cons z zs =>
        simp only [listLt] at h1 h2 ⊢
        by_cases a1 : tokLt x y = true <;> by_cases a2 : tokLt y z = true
        · rw [if_pos (tokLt_trans a1 a2)]
        · rw [if_neg a2] at h2
          by_cases a3 : tokLt z y = true
          · rw [if_pos a3] at h2
            exact absurd h2 (by simp)
          · have hyz : y = z := tokLt_total_eq (bool_ne_true a2) (bool_ne_true a3)
            subst hyz
            rw [if_pos a1]
        · rw [if_neg a1] at h1
          by_cases a3 : tokLt y x = true
          · rw [if_pos a3] at h1
            exact absurd h1 (by simp)
          · have hxy : x = y := tokLt_total_eq (bool_ne_true a1) (bool_ne_true a3)
            subst hxy
            rw [if_pos a2]
        · rw [if_neg a1] at h1
          rw [if_neg a2] at h2
          by_cases a3 : tokLt y x = true
          · rw [if_pos a3] at h1
            exact absurd h1 (by simp)
          rw [if_neg a3] at h1
          by_cases a4 : tokLt z y = true
          · rw [if_pos a4] at h2
            exact absurd h2 (by simp)
          rw [if_neg a4] at h2
          have hxy : x = y := tokLt_total_eq (bool_ne_true a1) (bool_ne_true a3)
          have hyz : y = z := tokLt_total_eq (bool_ne_true a2) (bool_ne_true a4)
          subst hxy
          subst hyz
          rw [if_neg (by simp [tokLt_irrefl]), if_neg (by simp [tokLt_irrefl])]
          exact ih ys zs h1 h2

theorem listLt_incomp_eq : ∀ l1 l2 : List Tok, listLt l1 l2 = false →
    listLt l2 l1 = false → l1 = l2 := by
  intro l1
  induction l1 with
  | nil =>
    intro l2 h1 _
    cases l2 with
    | nil => rfl
    | cons y ys => simp [listLt] at h1
  | cons x xs ih =>
    intro l2 h1 h2
    cases l2 with
    | nil => simp [listLt] at h2
    | cons y ys =>
      simp only [listLt] at h1 h2
      by_cases a1 : tokLt x y = true
      · rw [if_pos a1] at h1
        exact absurd h1 (by simp)
      by_cases a2 : tokLt y x = true
      · rw [if_pos a2] at h2
        exact absurd h2 (by simp)
      rw [if_neg a1, if_neg a2] at h1
      rw [if_neg a2, if_neg a1] at h2
      have hxy : x = y := tokLt_total_eq (bool_ne_true a1) (bool_ne_true a2)
      rw [hxy, ih ys h1 h2]

theorem cmpLt_toks : ∀ (n : ℕ) (a b : List Char), a.length < n →
    cmpLt a b = listLt (toks a) (toks b) := by
  intro n
  induction n with
  | zero => exact fun a b h => absurd h (Nat.not_lt_zero _)
  | succ n ih =>
    intro a b h
    match a, b with
    | [], [] => simp [cmpLt, toks, listLt]
    | [], c :: cs =>
      simp only [cmpLt, toks]
      by_cases hd : isDig c = true
      · rw [dif_pos hd]
        simp [listLt]
      · rw [dif_neg hd]
        simp [listLt]
    | ca :: as, [] =>
      simp only [cmpLt, toks]
      by_cases hd : isDig ca = true
      · rw [dif_pos hd]
        simp [listLt]
      · rw [dif_neg hd]
        simp [listLt]
    | ca :: as, cb :: bs =>
      simp only [List.length_cons] at h
      by_cases hda : isDig ca = true <;> by_cases hdb : isDig cb = true
      · have hd : (isDig ca && isDig cb) = true := by rw [hda, hdb]; rfl
        simp only [cmpLt, toks]
        rw [dif_pos hd, dif_pos hda, dif_pos hdb]
        simp only [listLt, tokLt]
        by_cases hv : runVal ((ca :: as).takeWhile isDig) = runVal ((cb :: bs).takeWhile isDig)
        · rw [if_neg (fun hn => hn hv), hv]
          have h1 := length_dropWhile_le isDig as
          rw [ih _ _ (by rw [dropWhile_cons_pos isDig ca as hda]; omega)]
          simp
        · rw [if_pos hv]
          rcases Nat.lt_trichotomy (runVal ((ca :: as).takeWhile isDig))
              (runVal ((cb :: bs).takeWhile isDig)) with hlt | heq | hgt
          · simp [hlt]
          · exact absurd heq hv
          · simp [hgt, Nat.lt_asymm hgt]
      · have hd : ¬ (isDig ca && isDig cb) = true := by
          rw [hda, bool_ne_true hdb]
          simp
        simp only [cmpLt, toks]
        rw [dif_neg hd, if_pos hda, dif_pos hda, dif_neg hdb]
        simp [listLt, tokLt]
      · have hd : ¬ (isDig ca && isDig cb) = true := by
          rw [bool_ne_true hda]
          simp
        simp only [cmpLt, toks]
        rw [dif_neg hd, if_neg hda, if_pos hdb, dif_neg hda, dif_pos hdb]
        simp [listLt, tokLt]
      · have hd : ¬ (isDig ca && isDig cb) = true := by
          rw [bool_ne_true hda]
          simp
        simp only [cmpLt, toks]
        rw [dif_neg hd, if_neg hda, if_neg hdb, dif_neg hda, dif_neg hdb]
        simp only [listLt, tokLt]
        by_cases hc : ca.toNat = cb.toNat
        · rw [if_neg (fun hn => hn hc), hc]
          rw [ih as bs (by omega)]
          simp
        · rw [if_pos hc]
          rcases Nat.lt_trichotomy ca.toNat cb.toNat with hlt | heq | hgt
          · simp [hlt]
          · exact absurd heq hc
          · simp [hgt, Nat.lt_asymm hgt]

theorem cmpLt_toks_eq (a b : List Char) : cmpLt a b = listLt (toks a) (toks b) :=
  cmpLt_toks (a.length + 1) a b (Nat.lt_succ_self _)

/-- Claim C8: the path comparator is a strict weak ordering over all
identifier strings: irreflexive, asymmetric, with a transitive less-than
and transitive incomparability, hence valid as the sort key of the full
identifier map. -/
theorem comparator_strict_weak_order :
    (∀ a : String, CmpSensorsName a a = false) ∧
    (∀ a b : String, CmpSensorsName a b = true → CmpSensorsName b a = false) ∧
    (∀ a b c : String, CmpSensorsName a b = true → CmpSensorsName b c = true →
      CmpSensorsName a c = true) ∧
    (∀ a b c : String,
      CmpSensorsName a b = false ∧ CmpSensorsName b a = false →
      CmpSensorsName b c = false ∧ CmpSensorsName c b = false →
      CmpSensorsName a c = false ∧ CmpSensorsName c a = false) := by
  refine ⟨?_, ?_, ?_, ?_⟩
  · intro a
    simp only [CmpSensorsName]
    rw [cmpLt_toks_eq]
    exact listLt_irrefl _
  · intro a b h
    simp only [CmpSensorsName] at h ⊢
    rw [cmpLt_toks_eq] at h ⊢
    exact listLt_asymm _ _ h
  · intro a b c h1 h2
    simp only [CmpSensorsName] at h1 h2 ⊢
    rw [cmpLt_toks_eq] at h1 h2 ⊢
    exact listLt_trans _ _ _ h1 h2
  · intro a b c h12 h34
    obtain ⟨h1, h2⟩ := h12
    obtain ⟨h3, h4⟩ := h34
    simp only [CmpSensorsName] at h1 h2 h3 h4 ⊢
    rw [cmpLt_toks_eq] at h1 h2 h3 h4
    have e1 : toks a.data = toks b.data := listLt_incomp_eq _ _ h1 h2
    have e2 : toks b.data = toks c.data := listLt_incomp_eq _ _ h3 h4
    constructor
    · rw [cmpLt_toks_eq, e1, e2]
      exact listLt_irrefl _
    · rw [cmpLt_toks_eq, e1, e2]
      exact listLt_irrefl _

theorem comparator_strict_weak_order_witness :
    CmpSensorsName "fan1" "fan10" = true :=
  comparator_strict_weak_order.2.2.1 "fan1" "fan2" "fan10"
    (by rw [CmpSensorsName_eval]; decide) (by rw [CmpSensorsName_eval]; decide)

/-- The string does not end in a decimal digit (so no digit run of it can
merge with an appended continuation). -/
def noTrailingDig (s : List Char) : Bool :=
  match s.getLast? with
  | none => true
  | some c => !isDig c

/-- The continuation starts with a non-digit (or is empty), so a digit
run ending right before it is maximal. -/
def headNotDig : List Char → Bool
  | [] => true
  | c :: _ => !isDig c

theorem tw_append (p : Char → Bool) (l x : List Char) (hl : ∃ y ∈ l, p y = false) :
    List.takeWhile p (l ++ x) = List.takeWhile p l ∧
    List.dropWhile p (l ++ x) = List.dropWhile p l ++ x := by
  induction l with
  | nil =>
    rcases hl with ⟨y, hy, _⟩
    simp at hy
  | cons c cs ih =>
    cases hc : p c
    · simp [List.takeWhile, List.dropWhile, hc]
    · rcases hl with ⟨y, hy, hpy⟩
      rcases List.mem_cons.mp hy with rfl | hy'
      · rw [hc] at hpy
        exact absurd hpy (by simp)
      · have hr := ih ⟨y, hy', hpy⟩
        simp [List.takeWhile, List.dropWhile, hc, hr.1, hr.2]

theorem tw_all (da u : List Char) (h1 : da.all isDig = true) (h2 : headNotDig u = true) :
    List.takeWhile isDig (da ++ u) = da ∧ List.dropWhile isDig (da ++ u) = u := by
  induction da with
  | nil =>
    cases u with
    | nil => simp [List.takeWhile, List.dropWhile]
    | cons c cs =>
      simp only [headNotDig, Bool.not_eq_true'] at h2
      simp [List.takeWhile, List.dropWhile, h2]
  | cons d ds ih =>
    simp only [List.all_cons, Bool.and_eq_true] at h1
    have hr := ih h1.2
    simp [List.takeWhile, List.dropWhile, h1.1, hr.1, hr.2]

theorem noTrailingDig_tail (c : Char) (cs : List Char)
    (h : noTrailingDig (c :: cs) = true) : noTrailingDig cs = true := by
  cases cs with
  | nil => rfl
  | cons d ds =>
    simp only [noTrailingDig, List.getLast?_cons_cons] at h ⊢
    exact h

theorem noTrailingDig_stopper : ∀ s : List Char, noTrailingDig s = true → s ≠ [] →
    ∃ y ∈ s, isDig y = false := by
  intro s
  induction s with
  | nil => exact fun _ hne => absurd rfl hne
  | cons c cs ih =>
    intro hs _
    cases cs with
    | nil =>
      refine ⟨c, by simp, ?_⟩
      simp only [noTrailingDig, List.getLast?_singleton, Bool.not_eq_true'] at hs
      exact hs
    | cons d ds =>
      rcases ih (noTrailingDig_tail c (d :: ds) hs) (by simp) with ⟨y, hy, hpy⟩
      exact ⟨y, List.mem_cons_of_mem _ hy, hpy⟩

theorem noTrailingDig_dropWhile : ∀ s : List Char, noTrailingDig s = true →
    noTrailingDig (List.dropWhile isDig s) = true := by
  intro s
  induction s with
  | nil => exact fun _ => rfl
  | cons c cs ih =>
    intro hs
    cases hc : isDig c
    · rw [List.dropWhile, hc]
      exact hs
    · rw [List.dropWhile, hc]
      exact ih (noTrailingDig_tail c cs hs)

theorem toks_append : ∀ (n : ℕ) (s x : List Char), s.length < n →
    noTrailingDig s = true → toks (s ++ x) = toks s ++ toks x := by
  intro n
  induction n with
  | zero => exact fun s x h _ => absurd h (Nat.not_lt_zero _)
  | succ n ih =>
    intro s x h hs
    match s with
    | [] => simp [toks]
    | c :: cs =>
      simp only [List.length_cons] at h
      by_cases hd : isDig c = true
      · have hstop : ∃ y ∈ c :: cs, isDig y = false :=
          noTrailingDig_stopper (c :: cs) hs (by simp)
        have htw := tw_append isDig (c :: cs) x hstop
        rw [List.cons_append]
        simp only [toks]
        rw [dif_pos hd, dif_pos hd]
        rw [← List.cons_append c cs x, htw.1, htw.2]
        have hlen : (List.dropWhile isDig (c :: cs)).length < n := by
          rw [dropWhile_cons_pos isDig c cs hd]
          have := length_dropWhile_le isDig cs
          omega
        rw [ih (List.dropWhile isDig (c :: cs)) x hlen (noTrailingDig_dropWhile _ hs)]
        rfl
      · rw [List.cons_append]
        simp only [toks]
        rw [dif_neg hd, dif_neg hd]
        rw [ih cs x (by omega) (noTrailingDig_tail c cs hs)]
        rfl

theorem toks_append_eq (s x : List Char) (hs : noTrailingDig s = true) :
    toks (s ++ x) = toks s ++ toks x :=
  toks_append (s.length + 1) s x (Nat.lt_succ_self _) hs

theorem listLt_cancel (t u v : List Tok) : listLt (t ++ u) (t ++ v) = listLt u v := by
  induction t with
  | nil => rfl
  | cons w ws ih => simp [listLt, tokLt_irrefl, ih]

theorem cmpLt_append (s x y : List Char) (hs : noTrailingDig s = true) :
    cmpLt (s ++ x) (s ++ y) = cmpLt x y := by
  rw [cmpLt_toks_eq, cmpLt_toks_eq, toks_append_eq s x hs, toks_append_eq s y hs,
    listLt_cancel]

/-- Claim C3 (amended): the lock-step scan rules of the path comparator.
After any common prefix that does not end in a digit: (a) maximal digit
runs at the same scan position compare by `strtoul` value, and on a tie
the scan continues after both runs; (b) when exactly one side has a digit
the digit side sorts first; (c) when the scan reaches end-of-string on
one side while the other continues, the ended side sorts first — a
proper prefix sorts first except when the final digit-run comparison
already consumed both remainders on a tie; (d) when neither side has a
digit, bytes compare literally. -/
theorem comparator_scan_rules :
    (∀ s da db u v : List Char, noTrailingDig s = true →
      da ≠ [] → db ≠ [] → da.all isDig = true → db.all isDig = true →
      headNotDig u = true → headNotDig v = true →
      (runVal da ≠ runVal db →
        cmpLt (s ++ da ++ u) (s ++ db ++ v) = decide (runVal da < runVal db)) ∧
      (runVal da = runVal db →
        cmpLt (s ++ da ++ u) (s ++ db ++ v) = cmpLt u v)) ∧
    (∀ (s : List Char) (cx cy : Char) (xs ys : List Char), noTrailingDig s = true →
      isDig cx = true → isDig cy = false →
      cmpLt (s ++ cx :: xs) (s ++ cy :: ys) = true ∧
      cmpLt (s ++ cy :: ys) (s ++ cx :: xs) = false) ∧
    (∀ s x : List Char, noTrailingDig s = true → x ≠ [] →
      cmpLt s (s ++ x) = true ∧ cmpLt (s ++ x) s = false) ∧
    (∀ (s : List Char) (cx cy : Char) (xs ys : List Char), noTrailingDig s = true →
      isDig cx = false → isDig cy = false →
      cmpLt (s ++ cx :: xs) (s ++ cy :: ys) =
        (if cx.toNat ≠ cy.toNat then decide (cx.toNat < cy.toNat) else cmpLt xs ys)) := by
  refine ⟨?_, ?_, ?_, ?_⟩
  · intro s da db u v hs hda hdb hall1 hall2 hu hv
    rcases da with _ | ⟨d, ds⟩
    · exact absurd rfl hda
    rcases db with _ | ⟨e, es⟩
    · exact absurd rfl hdb
    have h1 := tw_all (d :: ds) u hall1 hu
    have h2 := tw_all (e :: es) v hall2 hv
    simp only [List.all_cons, Bool.and_eq_true] at hall1 hall2
    have hcond : (isDig d && isDig e) = true := by rw [hall1.1, hall2.1]; rfl
    constructor
    · intro hne
      rw [List.append_assoc, List.append_assoc, cmpLt_append s _ _ hs,
        List.cons_append, List.cons_append]
      simp only [cmpLt]
      rw [dif_pos hcond, ← List.cons_append d ds u, ← List.cons_append e es v,
        h1.1, h2.1, if_pos hne]
    · intro heq
      rw [List.append_assoc, List.append_assoc, cmpLt_append s _ _ hs,
        List.cons_append, List.cons_append]
      simp only [cmpLt]
      rw [dif_pos hcond, ← List.cons_append d ds u, ← List.cons_append e es v,
        h1.1, h2.1, h1.2, h2.2, if_neg (fun hn => hn heq)]
  · intro s cx cy xs ys hs hdx hdy
    constructor
    · rw [cmpLt_append s _ _ hs]
      simp only [cmpLt]
      rw [dif_neg (by rw [hdx, hdy]; simp), if_pos hdx]
    · rw [cmpLt_append s _ _ hs]
      simp only [cmpLt]
      rw [dif_neg (by rw [hdy]; simp), if_neg (by rw [hdy]; simp), if_pos hdx]
  · intro s x hs hx
    have hc1 := cmpLt_append s [] x hs
    have hc2 := cmpLt_append s x [] hs
    rw [List.append_nil] at hc1 hc2
    constructor
    · rw [hc1]
      rcases x with _ | ⟨c, cs⟩
      · exact absurd rfl hx
      · simp [cmpLt]
    · rw [hc2]
      rcases x with _ | ⟨c, cs⟩
      · exact absurd rfl hx
      · simp [cmpLt]
  · intro s cx cy xs ys hs hdx hdy
    rw [cmpLt_append s _ _ hs]
    simp only [cmpLt]
    rw [dif_neg (by rw [hdx]; simp), if_neg (by rw [hdx]; simp),
      if_neg (by rw [hdy]; simp)]

/-- Claim C3 as frozen is false on its proper-prefix clause: "fan0" is a
proper prefix of "fan00", yet the comparator reports the two as
equivalent (the tied digit-run comparison consumes both remainders), so
the shorter string does not sort first. -/
theorem claim_C3_counterexample :
    ("fan0" : String).data ++ ['0'] = ("fan00" : String).data ∧
    CmpSensorsName "fan0" "fan00" = false ∧
    CmpSensorsName "fan00" "fan0" = false := by
  refine ⟨by decide, ?_, ?_⟩ <;> (rw [CmpSensorsName_eval]; decide)

theorem comparator_scan_rules_witness :
    cmpLt ("fan".data ++ "2".data ++ []) ("fan".data ++ "10".data ++ []) =
      decide (runVal "2".data < runVal "10".data) :=
  (comparator_scan_rules.1 "fan".data "2".data "10".data [] [] (by decide)
    (by decide) (by decide) (by decide) (by decide) (by decide) (by decide)).1
    (by decide)

/-- Observable output events of the listing and watch loops. -/
inductive Ev where
  | row (path : String) (fields : List (Except Unit String))
  | stamp
  | cell (v : Except Unit String)
  | sleep (n : ℤ)
  | unresolved (name : String)

/-- Process exit: a normal return code from `main`, or abnormal
termination by an uncaught exception (`std::terminate`), whose observed
status is always non-zero. -/
inductive Exit where
  | code (n : ℕ)
  | signal
  deriving DecidableEq

/-- Only a normal zero return is a successful exit status. -/
def Exit.success : Exit → Bool
  | .code 0 => true
  | _ => false

/-- The property-fetch collaborator: `GetAll` for a (service, path) pair;
`none` models a failed call, on which `bus::call` throws `SdBusError`. -/
abbrev Fetch := String → String → Option Properties

/-- `printSensorData`: `systemBus.call` throws on a failed fetch and this
function has no handler, so the exception escapes (`.error ()`) before
anything is printed for the sensor — the `is_method_error()` diagnostic
branch is dead code.  On success one row of rendered fields is printed in
the column order of the source.  Group headers are pure presentation and
carry no control flow, so they are not part of the event model. -/
def printSensorData (f : Fetch) (service path : String) : Except Unit (List Ev) :=
  match f service path with
  | none => .error ()
  | some props =>
    .ok [.row path [status props, value props, unit props, criticalLow props,
      warningLow props, warningHigh props, criticalHigh props, fatalHigh props]]

/-- The flattened iteration order of the one-shot loop of `main`:
objects in map order, each object's services in order. -/
def sensorsOf (objects : List (String × List String)) : List (String × String) :=
  objects.flatMap fun op => op.2.map fun sv => (sv, op.1)

/-- The one-shot listing loop of `main`: rows accumulate until a fetch
failure's exception escapes `printSensorData`; `main` has no handler for
it, so the process dies abnormally and later sensors are never visited.
If every fetch succeeds, `main` returns `EXIT_SUCCESS` (0). -/
def listLoop (f : Fetch) : List (String × String) → List Ev × Exit
  | [] => ([], .code 0)
  | q :: rest =>
    match printSensorData f q.1 q.2 with
    | .error _ => ([], .signal)
    | .ok evs =>
      let r := listLoop f rest
      (evs ++ r.1, r.2)

/-- The whole one-shot listing. -/
def listSensors (f : Fetch) (objects : List (String × List String)) : List Ev × Exit :=
  listLoop f (sensorsOf objects)

/-- One polling tick of `watch_senors`: each resolved endpoint is fetched
in session order and its value cell printed; a failed fetch throws out of
the loop (`.error` carries the cells already printed this tick) — the
`is_method_error()` branch with its `return EXIT_FAILURE` is dead code. -/
def watchTick (g : String → String → Option Properties) :
    List (String × String) → Except (List Ev) (List Ev)
  | [] => .ok []
  | (sv, p) :: rest =>
    match g sv p with
    | none => .error []
    | some props =>
      match watchTick g rest with
      | .error evs => .error (.cell (value props) :: evs)
      | .ok evs => .ok (.cell (value props) :: evs)

/-- The polling loop of `watch_senors`, fuelled: each tick prints a
timestamp and its cells and then sleeps for the interval; a fetch failure
kills the session via the uncaught exception (`Exit.signal`); `none`
means still running when the fuel runs out (the loop itself never
terminates normally). -/
def watchRun (f : ℕ → String → String → Option Properties)
    (sensors : List (String × String)) (interval : ℤ) : ℕ → ℕ → List Ev × Option Exit
  | _, 0 => ([], none)
  | t, fuel + 1 =>
    match watchTick (f t) sensors with
    | .error evs => (.stamp :: evs, some .signal)
    | .ok evs =>
      let rest := watchRun f sensors interval (t + 1) fuel
      (.stamp :: evs ++ .sleep interval :: rest.1, rest.2)

/-- `path.substr(path.rfind('/') + 1)`: the instance-name segment. -/
def lastSegS (p : String) : String := afterLast '/' p

/-- The resolution phase of `watch_senors`: for each user name in order,
scan the sensor set for objects whose instance name matches and record
every (service, path) endpoint; a name with no matching object fails
immediately with that name. -/
def resolve (objects : List (String × List String)) :
    List String → Except String (List (String × String))
  | [] => .ok []
  | name :: rest =>
    let matched := objects.filter fun o => lastSegS o.1 == name
    if matched.isEmpty then .error name
    else
      match resolve objects rest with
      | .error e => .error e
      | .ok tail => .ok ((matched.flatMap fun o => o.2.map fun sv => (sv, o.1)) ++ tail)

/-- `watch_senors`: resolution first; an unresolved name prints its
diagnostic and returns `EXIT_FAILURE` (1) before any fetch (this return
path is live code); otherwise the polling loop runs. -/
def watch_senors (f : ℕ → String → String → Option Properties)
    (watchList : List String) (interval : ℤ)
    (objects : List (String × List String)) (fuel : ℕ) : List Ev × Option Exit :=
  match resolve objects watchList with
  | .error name => ([.unresolved name], some (.code 1))
  | .ok sensors => watchRun f sensors interval 0 fuel

/-- The recognized command-line options of the watch-capable revision. -/
inductive CliOpt where
  | watch (arg : String)
  | interval (arg : String)
  | cli
  | help
  | unknown
  deriving DecidableEq

/-- The option-processing state of `main`. -/
structure Config where
  showhelp : Bool
  cli_mode : Bool
  watch_mode : Bool
  watch_list : List String
  watch_interval : ℤ
  deriving DecidableEq

/-- State before the `getopt` loop: `int watch_interval = 1`. -/
def initConfig : Config := ⟨false, false, false, [], 1⟩

/-- The `-w` argument split on commas, empty pieces skipped
(`find_first_not_of`). -/
def splitList (s : String) : List String :=
  (s.split (fun c => c == ',')).filter (fun t => !t.isEmpty)

/-- Leading digits parsed as a number, `none` when there are none
(`std::stoi` throwing `invalid_argument`). -/
def parseDigits (l : List Char) : Option ℕ :=
  let ds := l.takeWhile isDig
  if ds.isEmpty then none else some (parseNat ds)

/-- `std::stoi`: optional leading spaces, optional sign, leading digits;
trailing junk ignored. -/
def stoiOpt (s : String) : Option ℤ :=
  match s.data.dropWhile (fun c => c == ' ') with
  | '-' :: rest => (parseDigits rest).map (fun n => -(n : ℤ))
  | '+' :: rest => (parseDigits rest).map (fun n => (n : ℤ))
  | rest => (parseDigits rest).map (fun n => (n : ℤ))

/-- One iteration of the `getopt` switch. -/
def applyOpt (cfg : Config) (o : CliOpt) : Config :=
  match o with
  | .cli => { cfg with cli_mode := true }
  | .watch a => { cfg with watch_mode := true, watch_list := cfg.watch_list ++ splitList a }
  | .interval a =>
    let wi := match stoiOpt a with
      | some v => v
      | none => cfg.watch_interval
    { cfg with
      watch_interval := wi,
      showhelp := cfg.showhelp || (stoiOpt a).isNone || decide (wi ≤ 0) }
  | .help => { cfg with showhelp := true }
  | .unknown => { cfg with showhelp := true }

/-- The whole `getopt` loop over the recognized options. -/
def parseOpts (opts : List CliOpt) : Config := opts.foldl applyOpt initConfig

theorem watchTick_sleep_free (g : String → String → Option Properties) :
    ∀ (sensors : List (String × String)) (n : ℤ),
    (∀ evs, watchTick g sensors = .ok evs → Ev.sleep n ∉ evs) ∧
    (∀ evs, watchTick g sensors = .error evs → Ev.sleep n ∉ evs) := by
  intro sensors
  induction sensors with
  | nil =>
    intro n
    constructor
    · intro evs h
      simp only [watchTick, Except.ok.injEq] at h
      rw [← h]
      simp
    · intro evs h
      simp only [watchTick] at h
      exact absurd h (by simp)
  | cons sp rest ih =>
    intro n
    obtain ⟨sv, p⟩ := sp
    constructor
    · intro evs h
      simp only [watchTick] at h
      cases hg : g sv p with
      | none =>
        rw [hg] at h
        exact absurd h (by simp)
      | some props =>
        rw [hg] at h
        cases hr : watchTick g rest with
        | error evs' =>
          rw [hr] at h
          exact absurd h (by simp)
        | ok evs' =>
          rw [hr] at h
          simp only [Except.ok.injEq] at h
          rw [← h]
          intro hmem
          rcases List.mem_cons.mp hmem with heq | hmem'
          · exact absurd heq (by simp)
          · exact (ih n).1 evs' hr hmem'
    · intro evs h
      simp only [watchTick] at h
      cases hg : g sv p with
      | none =>
        rw [hg] at h
        simp only [Except.error.injEq] at h
        rw [← h]
        simp
      | some props =>
        rw [hg] at h
        cases hr : watchTick g rest with
        | ok evs' =>
          rw [hr] at h
          exact absurd h (by simp)
        | error evs' =>
          rw [hr] at h
          simp only [Except.error.injEq] at h
          rw [← h]
          intro hmem
          rcases List.mem_cons.mp hmem with heq | hmem'
          · exact absurd heq (by simp)
          · exact (ih n).2 evs' hr hmem'

theorem watchRun_exit : ∀ (fuel : ℕ) (f : ℕ → String → String → Option Properties)
    (sensors : List (String × String)) (interval : ℤ) (t : ℕ) (e : Exit),
    (watchRun f sensors interval t fuel).2 = some e → e = .signal := by
  intro fuel
  induction fuel with
  | zero =>
    intro f sensors i t e h
    simp [watchRun] at h
  | succ fuel ih =>
    intro f sensors i t e h
    simp only [watchRun] at h
    cases htick : watchTick (f t) sensors with
    | error evs =>
      rw [htick] at h
      simp only [Option.some.injEq] at h
      exact h.symm
    | ok evs =>
      rw [htick] at h
      exact ih f sensors i (t + 1) e h

theorem watchTick_err (g : String → String → Option Properties) :
    ∀ (sensors : List (String × String)) (sv p : String),
    (sv, p) ∈ sensors → g sv p = none →
    ∃ evs, watchTick g sensors = .error evs := by
  intro sensors
  induction sensors with
  | nil =>
    intro sv p h _
    simp at h
  | cons sp rest ih =>
    intro sv p hmem hg
    obtain ⟨s0, p0⟩ := sp
    rcases List.mem_cons.mp hmem with heq | hmem'
    · rw [Prod.mk.injEq] at heq
      obtain ⟨rfl, rfl⟩ := heq
      exact ⟨[], by simp [watchTick, hg]⟩
    · cases hg0 : g s0 p0 with
      | none => exact ⟨[], by simp [watchTick, hg0]⟩
      | some props =>
        rcases ih sv p hmem' hg with ⟨evs, he⟩
        exact ⟨.cell (value props) :: evs, by simp [watchTick, hg0, he]⟩

/-- One-shot listing input exercising C6: the second sensor's fetch
fails, the first and third succeed. -/
def exObjs : List (String × List String) :=
  [("/xyz/openbmc_project/sensors/temperature/t1", ["svc"]),
   ("/xyz/openbmc_project/sensors/temperature/t2", ["svc"]),
   ("/xyz/openbmc_project/sensors/temperature/t3", ["svc"])]

/-- A healthy reading for the succeeding sensors. -/
def exProps : Properties := fun n =>
  if n = "Value" then some (.dbl (.num ⟨42, 0⟩)) else none

/-- Fetch oracle failing exactly on the second sensor. -/
def exFetch : Fetch := fun _ p =>
  if p = "/xyz/openbmc_project/sensors/temperature/t2" then none else some exProps

/-- The row a succeeding sensor contributes (and nothing for a failing
one); used to describe the output rendered before an abort. -/
def okRow (f : Fetch) (q : String × String) : List Ev :=
  match f q.1 q.2 with
  | none => []
  | some props =>
    [.row q.2 [status props, value props, unit props, criticalLow props,
      warningLow props, warningHigh props, criticalHigh props, fatalHigh props]]

theorem listLoop_abort (f : Fetch) :
    ∀ (pre : List (String × String)) (sv p : String) (post : List (String × String)),
    (∀ q ∈ pre, f q.1 q.2 ≠ none) → f sv p = none →
    listLoop f (pre ++ (sv, p) :: post) = (pre.flatMap (okRow f), Exit.signal) := by
  intro pre
  induction pre with
  | nil =>
    intro sv p post _ hf
    simp [listLoop, printSensorData, hf]
  | cons q0 pre ih =>
    intro sv p post hpre hf
    have hq0 : f q0.1 q0.2 ≠ none := hpre q0 (List.mem_cons_self _ _)
    cases hg : f q0.1 q0.2 with
    | none => exact absurd hg hq0
    | some props =>
      simp only [List.cons_append, listLoop, printSensorData, hg, List.append_eq]
      rw [ih sv p post (fun q hq => hpre q (List.mem_cons_of_mem _ hq)) hf]
      simp [okRow, hg]

/-- Claim C6: every per-sensor property-fetch failure is fatal to the
operation in progress.  `bus::call` throws `SdBusError` on a failed
`GetAll` and neither `printSensorData` nor the watch loop has a handler,
so in one-shot listing the first failing sensor aborts the whole listing
with a non-zero (abnormal) exit status — only the rows before it are
rendered, none of the remaining sensors are; and in watch mode a fetch
failure for any endpoint aborts the entire polling session the same way,
the loop having no other way to exit. -/
theorem fetch_failure_fatal :
    (∀ (f : Fetch) (objects : List (String × List String))
      (pre : List (String × String)) (sv p : String)
      (post : List (String × String)),
      sensorsOf objects = pre ++ (sv, p) :: post →
      (∀ q ∈ pre, f q.1 q.2 ≠ none) → f sv p = none →
      listSensors f objects = (pre.flatMap (okRow f), Exit.signal) ∧
      Exit.success Exit.signal = false) ∧
    (∀ (f : ℕ → String → String → Option Properties)
      (sensors : List (String × String)) (sv p : String) (interval : ℤ) (fuel : ℕ),
      (sv, p) ∈ sensors → f 0 sv p = none →
      (watchRun f sensors interval 0 (fuel + 1)).2 = some Exit.signal) ∧
    (∀ (f : ℕ → String → String → Option Properties)
      (sensors : List (String × String)) (interval : ℤ) (t fuel : ℕ) (e : Exit),
      (watchRun f sensors interval t fuel).2 = some e →
      e = Exit.signal ∧ Exit.success e = false) := by
  refine ⟨?_, ?_, ?_⟩
  · intro f objects pre sv p post hdec hpre hf
    refine ⟨?_, rfl⟩
    rw [listSensors, hdec]
    exact listLoop_abort f pre sv p post hpre hf
  · intro f sensors sv p i fuel hmem hg
    rcases watchTick_err (f 0) sensors sv p hmem hg with ⟨evs, he⟩
    simp [watchRun, he]
  · intro f sensors i t fuel e h
    have he := watchRun_exit fuel f sensors i t e h
    exact ⟨he, by rw [he]; rfl⟩

theorem fetch_failure_fatal_witness :
    listSensors exFetch exObjs =
      ([("svc", "/xyz/openbmc_project/sensors/temperature/t1")].flatMap (okRow exFetch),
        Exit.signal) ∧
    Exit.success Exit.signal = false :=
  fetch_failure_fatal.1 exFetch exObjs
    [("svc", "/xyz/openbmc_project/sensors/temperature/t1")]
    "svc" "/xyz/openbmc_project/sensors/temperature/t2"
    [("svc", "/xyz/openbmc_project/sensors/temperature/t3")]
    rfl
    (by
      intro q hq
      simp only [List.mem_singleton] at hq
      subst hq
      simp [exFetch])
    rfl

example :
    listSensors exFetch exObjs =
      ([.row "/xyz/openbmc_project/sensors/temperature/t1"
          [.ok "OK", .ok " 42.000", .ok "", .ok "N/A", .ok "N/A", .ok "N/A",
           .ok "N/A", .ok "N/A"]], Exit.signal) := rfl

theorem resolve_error_of_unmatched :
    ∀ (l : List String) (objects : List (String × List String)) (name : String),
    name ∈ l → (∀ o ∈ objects, lastSegS o.1 ≠ name) →
    ∃ n', resolve objects l = .error n' ∧ n' ∈ l ∧
      ∀ o ∈ objects, lastSegS o.1 ≠ n' := by
  intro l
  induction l with
  | nil =>
    intro objects name h _
    simp at h
  | cons n0 rest ih =>
    intro objects name hmem hunm
    by_cases hm : (objects.filter fun o => lastSegS o.1 == n0).isEmpty = true
    · refine ⟨n0, ?_, List.mem_cons_self _ _, ?_⟩
      · simp only [resolve]
        rw [if_pos hm]
      · intro o ho heq
        have hin : o ∈ objects.filter fun o => lastSegS o.1 == n0 :=
          List.mem_filter.mpr ⟨ho, by rw [heq]; simp⟩
        rw [List.isEmpty_iff.mp hm] at hin
        simp at hin
    · have hname : name ≠ n0 := by
        rintro rfl
        rcases List.exists_mem_of_ne_nil _
            (fun he => hm (List.isEmpty_iff.mpr he)) with ⟨o, ho⟩
        have := List.mem_filter.mp ho
        exact hunm o this.1 (by simpa using this.2)
      have hmem' : name ∈ rest := by
        rcases List.mem_cons.mp hmem with rfl | h'
        · exact absurd rfl hname
        · exact h'
      rcases ih objects name hmem' hunm with ⟨n', he, hn'mem, hn'unm⟩
      refine ⟨n', ?_, List.mem_cons_of_mem _ hn'mem, hn'unm⟩
      simp only [resolve]
      rw [if_neg hm, he]

/-- Claim C7: a watch-mode name matching no discovered identifier (suffix
match on the last path segment) makes the whole operation fail with exit
1 during resolution — the only output is the unresolved-sensor diagnostic
naming an unresolved name; no fetch, tick, or sleep ever happens. -/
theorem unresolved_name_fails_before_polling
    (f : ℕ → String → String → Option Properties)
    (watchList : List String) (interval : ℤ)
    (objects : List (String × List String)) (fuel : ℕ) (name : String)
    (hmem : name ∈ watchList)
    (hunm : ∀ o ∈ objects, lastSegS o.1 ≠ name) :
    ∃ n', watch_senors f watchList interval objects fuel =
        ([.unresolved n'], some (Exit.code 1)) ∧
      n' ∈ watchList ∧ (∀ o ∈ objects, lastSegS o.1 ≠ n') := by
  rcases resolve_error_of_unmatched watchList objects name hmem hunm with
    ⟨n', he, h1, h2⟩
  exact ⟨n', by simp [watch_senors, he], h1, h2⟩

/-- Discovery result used by the C7/C9 witnesses. -/
def exWObjs : List (String × List String) :=
  [("/xyz/openbmc_project/sensors/fan_tach/f1", ["svc1", "svc2"]),
   ("/xyz/openbmc_project/sensors/temperature/t1", ["svc3"])]

theorem unresolved_name_fails_before_polling_witness :
    ∃ n', watch_senors (fun _ _ _ => some exProps) ["f1", "missing"] 1 exWObjs 5 =
        ([.unresolved n'], some (Exit.code 1)) ∧
      n' ∈ ["f1", "missing"] ∧ (∀ o ∈ exWObjs, lastSegS o.1 ≠ n') :=
  unresolved_name_fails_before_polling (fun _ _ _ => some exProps)
    ["f1", "missing"] 1 exWObjs 5 "missing" (by simp) (by decide)

/-- Claim C9: successful resolution returns, for each user-specified name
in the order given, all endpoints of every object whose instance name
matches, each group in discovery (sorted-set iteration) order. -/
theorem resolution_preserves_user_order :
    ∀ (watchList : List String) (objects : List (String × List String))
      (sensors : List (String × String)),
    resolve objects watchList = .ok sensors →
    sensors = watchList.flatMap fun name =>
      (objects.filter fun o => lastSegS o.1 == name).flatMap fun o =>
        o.2.map fun sv => (sv, o.1) := by
  intro l
  induction l with
  | nil =>
    intro objects sensors h
    simp only [resolve, Except.ok.injEq] at h
    rw [← h]
    rfl
  | cons n0 rest ih =>
    intro objects sensors h
    simp only [resolve] at h
    by_cases hm : (objects.filter fun o => lastSegS o.1 == n0).isEmpty = true
    · rw [if_pos hm] at h
      exact absurd h (by simp)
    · rw [if_neg hm] at h
      cases hr : resolve objects rest with
      | error e =>
        rw [hr] at h
        exact absurd h (by simp)
      | ok tail =>
        rw [hr] at h
        simp only [Except.ok.injEq] at h
        rw [← h, List.flatMap_cons, ih objects tail hr]

theorem resolution_preserves_user_order_witness :
    resolve exWObjs ["t1", "f1"] =
      .ok [("svc3", "/xyz/openbmc_project/sensors/temperature/t1"),
           ("svc1", "/xyz/openbmc_project/sensors/fan_tach/f1"),
           ("svc2", "/xyz/openbmc_project/sensors/fan_tach/f1")] ∧
    [("svc3", "/xyz/openbmc_project/sensors/temperature/t1"),
     ("svc1", "/xyz/openbmc_project/sensors/fan_tach/f1"),
     ("svc2", "/xyz/openbmc_project/sensors/fan_tach/f1")] =
      (["t1", "f1"] : List String).flatMap (fun name =>
        (exWObjs.filter fun o => lastSegS o.1 == name).flatMap fun o =>
          o.2.map fun sv => (sv, o.1)) :=
  ⟨rfl, resolution_preserves_user_order ["t1", "f1"] exWObjs _ rfl⟩

theorem applyOpt_interval (cfg : Config) (o : CliOpt) (h : ∀ a, o ≠ .interval a) :
    (applyOpt cfg o).watch_interval = cfg.watch_interval := by
  cases o with
  | watch a => rfl
  | interval a => exact absurd rfl (h a)
  | cli => rfl
  | help => rfl
  | unknown => rfl

theorem parse_interval : ∀ (opts : List CliOpt) (cfg : Config),
    (∀ a, CliOpt.interval a ∉ opts) →
    (opts.foldl applyOpt cfg).watch_interval = cfg.watch_interval := by
  intro opts
  induction opts with
  | nil => intro cfg _; rfl
  | cons o os ih =>
    intro cfg h
    rw [List.foldl_cons,
      ih (applyOpt cfg o) (fun a hmem => h a (List.mem_cons_of_mem _ hmem))]
    exact applyOpt_interval cfg o (fun a heq => h a (heq ▸ List.mem_cons_self _ _))

theorem watchRun_sleep_eq : ∀ (fuel : ℕ)
    (f : ℕ → String → String → Option Properties)
    (sensors : List (String × String)) (i : ℤ) (t : ℕ) (n : ℤ),
    Ev.sleep n ∈ (watchRun f sensors i t fuel).1 → n = i := by
  intro fuel
  induction fuel with
  | zero =>
    intro f sensors i t n h
    simp [watchRun] at h
  | succ fuel ih =>
    intro f sensors i t n h
    simp only [watchRun] at h
    cases htick : watchTick (f t) sensors with
    | error evs =>
      rw [htick] at h
      rcases List.mem_cons.mp h with heq | hmem
      · exact absurd heq (by simp)
      · exact absurd hmem ((watchTick_sleep_free (f t) sensors n).2 evs htick)
    | ok evs =>
      rw [htick] at h
      rcases List.mem_cons.mp h with heq | hmem
      · exact absurd heq (by simp)
      · rcases List.mem_append.mp hmem with h1 | h2
        · exact absurd h1 ((watchTick_sleep_free (f t) sensors n).1 evs htick)
        · rcases List.mem_cons.mp h2 with heq | hmem'
          · simp only [Ev.sleep.injEq] at heq
            exact heq
          · exact ih f sensors i (t + 1) n hmem'

theorem watchRun_tick_sleeps (f : ℕ → String → String → Option Properties)
    (sensors : List (String × String)) (i : ℤ) (t fuel : ℕ) (evs : List Ev)
    (h : watchTick (f t) sensors = .ok evs) :
    Ev.sleep i ∈ (watchRun f sensors i t (fuel + 1)).1 := by
  simp [watchRun, h]

/-- Claim C10: with no interval option among the parsed options the
watch interval keeps its initial value of exactly 1 second, every sleep
the poller performs at that interval is exactly 1 second, and every
successful non-final tick is followed by such a sleep. -/
theorem default_interval_one (opts : List CliOpt)
    (h : ∀ a : String, CliOpt.interval a ∉ opts) :
    (parseOpts opts).watch_interval = 1 ∧
    (∀ (f : ℕ → String → String → Option Properties)
      (sensors : List (String × String)) (t fuel : ℕ) (n : ℤ),
      Ev.sleep n ∈ (watchRun f sensors (parseOpts opts).watch_interval t fuel).1 →
      n = 1) ∧
    (∀ (f : ℕ → String → String → Option Properties)
      (sensors : List (String × String)) (t fuel : ℕ) (evs : List Ev),
      watchTick (f t) sensors = .ok evs →
      Ev.sleep 1 ∈ (watchRun f sensors (parseOpts opts).watch_interval t (fuel + 1)).1) := by
  have h1 : (parseOpts opts).watch_interval = 1 := parse_interval opts initConfig h
  refine ⟨h1, ?_, ?_⟩
  · intro f sensors t fuel n hmem
    rw [h1] at hmem
    exact watchRun_sleep_eq fuel f sensors 1 t n hmem
  · intro f sensors t fuel evs htick
    rw [h1]
    exact watchRun_tick_sleeps f sensors 1 t fuel evs htick

theorem default_interval_one_witness :
    (parseOpts [CliOpt.cli, CliOpt.watch "f1"]).watch_interval = 1 :=
  (default_interval_one [CliOpt.cli, CliOpt.watch "f1"] (by intro a; simp)).1

example : fmtFixed3 ⟨1234, -2⟩ = " 12.340" := by decide
example : fmtInt7 (Dec.truncInt ⟨1500, 0⟩) = "   1500" := by decide
example : fmtFixed3 ⟨-1500, 0⟩ = "-1500.0" := by decide
example : fmtFixed3 ⟨42, 0⟩ = " 42.000" := by decide
example : getValue (fun n => if n = "Value" then some (.int64 5) else none) "Value"
    = .ok "      5" := rfl

end LsSensors
